import Mathlib

/-!
Verification of the PhishGuard backend's authentication, identity-resolution
and log-ownership layer (files `backend/app.py`, `backend/db.py`,
`backend/config.py`), as a shallow embedding in Lean.

Conventions of the embedding:

* MySQL tables are lists of records; `NULL` string columns are modelled as
  the empty string `""`, a nullable integer column as `Option Int`.
  A SQL `SELECT ... WHERE` is `List.filter`, `ORDER BY id DESC` is
  `List.mergeSort` with the descending comparison, `LIMIT n` is `List.take n`.
  Single-row lookups are `List.find?` (ids, emails, usernames are unique).
* The third-party `itsdangerous` serializer is modelled symbolically: a
  signed token carries its payload, its issuance timestamp and the secret
  it was signed with; a signature is valid exactly when the signing secret
  equals the verifying secret (ideal unforgeable MAC).  `loads` checks the
  signature before the age, as the library does.
* The third-party `bcrypt` / werkzeug password hashers are modelled
  symbolically by `StoredHash`: a hash verifies exactly against the
  password it was derived from.
* Python truthiness on strings (`x or y`) is modelled by comparison with
  `""`; `str.strip()` by `py_strip`, `str.lower()` by `py_lower`,
  slicing `s[:n]` by `List.take n` on the character list.
-/

/-- Embeds Python `str.strip()`: drop whitespace from both ends. -/
def py_strip (s : String) : String :=
  ⟨((s.data.dropWhile Char.isWhitespace).reverse.dropWhile Char.isWhitespace).reverse⟩

/-- Embeds Python `str.lower()`: lowercase every character. -/
def py_lower (s : String) : String :=
  ⟨s.data.map Char.toLower⟩

/-- Embeds Python `int(s)` on a string of ASCII digits. -/
def py_digits_to_int (s : String) : Int :=
  (s.data.foldl (fun n c => 10 * n + (c.toNat - '0'.toNat)) 0 : Nat)

/-- Symbolic model of a stored password hash (`users.password_hash`):
`empty` models NULL/empty, `bcrypt pw` a bcrypt hash of `pw`,
`legacy pw` a werkzeug hash of `pw`. -/
inductive StoredHash where
  | empty : StoredHash
  | bcrypt (pw : String) : StoredHash
  | legacy (pw : String) : StoredHash
  deriving DecidableEq, Repr

/-- A row of the `users` table (`db.py`, `init_db`).  Columns not touched by
the verified operations (login ip/device, timestamps) are omitted. -/
structure UserRec where
  id : Int
  email : String
  username : String
  password_hash : StoredHash
  role : String
  can_delete_own_logs : Bool
  deriving DecidableEq, Repr

/-- A row of the `user_permissions` mirror table (`db.py`, `init_db`). -/
structure PermRow where
  username : String
  can_delete_own_logs : Bool
  updated_at : Int
  deriving DecidableEq, Repr

/-- A row of the `predictions` table, restricted to the columns the
ownership claims are about (`db.py`, `init_db`). -/
structure LogRow where
  id : Nat
  owner_user_id : Option Int
  owner_username : String
  url : String
  timestamp : Int
  deriving DecidableEq, Repr

/-- The database state touched by the permission-delegation operation. -/
structure DbState where
  users : List UserRec
  permissions : List PermRow
  deriving DecidableEq, Repr

/-- A caller-supplied user reference: Python passes either an `int` or a
`str` into `db._resolve_user`. -/
inductive RefId where
  | int (i : Int) : RefId
  | str (s : String) : RefId
  deriving DecidableEq, Repr

/-! ## Credential store lookups (`db.py`) -/

/-- Embeds `db.get_user_by_id`: `SELECT ... FROM users WHERE id=%s`. -/
def get_user_by_id (users : List UserRec) (user_id : Int) : Option UserRec :=
  users.find? (fun u => u.id == user_id)

/-- Embeds `db.get_user`: `SELECT ... FROM users WHERE username=%s`. -/
def get_user (users : List UserRec) (username : String) : Option UserRec :=
  users.find? (fun u => u.username == username)

/-- Embeds `db.get_user_by_email`: the argument is normalized by
`(email or "").strip().lower()` before the `WHERE email=%s` lookup. -/
def get_user_by_email (users : List UserRec) (email : String) : Option UserRec :=
  users.find? (fun u => u.email == py_lower (py_strip email))

/-! ## Identity resolver (`db.py`, `_resolve_user`) -/

/-- Embeds Python `str.isdigit()` (ASCII): non-empty and all digits. -/
def py_isdigit (s : String) : Bool :=
  s != "" && s.toList.all Char.isDigit

/-- Embeds `db._resolve_user`.  The source computes
`s = str(identifier or "").strip()`, returns `None` on empty `s`, then
dispatches: `isinstance(identifier, int) or s.isdigit()` to an id lookup
(via `int(s)`), `"@" in s` to an email lookup on `s.lower()`, otherwise a
username lookup on `s`.  For an `int` argument, `identifier or ""` is `""`
exactly when the int is `0`, and `int(str(i).strip())` round-trips to `i`,
so the int branch is written directly on `i`. -/
def resolve_user (users : List UserRec) (identifier : RefId) : Option UserRec :=
  match identifier with
  | .int i => if i = 0 then none else get_user_by_id users i
  | .str s0 =>
    let s := py_strip s0
    if s = "" then none
    else if py_isdigit s then get_user_by_id users (py_digits_to_int s)
    else if s.data.contains '@' then get_user_by_email users (py_lower s)
    else get_user users s

/-! ## Token service (`app.py`) -/

/-- The claim set `_make_token` serializes: keys `uid`, `e`, `u`, `r`.
`none` models an absent key (`payload.get(k) is None`). -/
structure Payload where
  uid : Option Int
  e : Option String
  u : Option String
  r : Option String
  deriving DecidableEq, Repr

/-- Symbolic model of a token produced by `itsdangerous.URLSafeTimedSerializer`:
the payload, the issuance time the serializer embeds, and the secret it was
signed with.  A signature verifies exactly when the secrets coincide. -/
structure SignedToken where
  payload : Payload
  issued : Int
  secret : String
  deriving DecidableEq, Repr

/-- Outcome of `URLSafeTimedSerializer.loads(token, max_age)`:
`ok` returns the claims, `expired` models `SignatureExpired`,
`badsig` models `BadSignature`. -/
inductive LoadResult where
  | ok (p : Payload) : LoadResult
  | expired : LoadResult
  | badsig : LoadResult
  deriving DecidableEq, Repr

/-- Symbolic model of `URLSafeTimedSerializer.loads` with `max_age`:
the library verifies the signature first (`BadSignature` on mismatch),
then raises `SignatureExpired` when the token's age exceeds `max_age`. -/
def serializer_loads (secret : String) (maxAge : Int) (now : Int)
    (tok : SignedToken) : LoadResult :=
  if tok.secret ≠ secret then .badsig
  else if now - tok.issued > maxAge then .expired
  else .ok tok.payload

/-- Embeds `app._make_token`: dumps
`{"uid": int(user_id), "e": email, "u": username or email, "r": role}`
signed with the process secret at the current time. -/
def make_token (secret : String) (now : Int) (user_id : Int) (email : String)
    (role : String) (username : Option String) : SignedToken :=
  { payload :=
      { uid := some user_id
        e := some email
        u := some (match username with
                   | some s => if s = "" then email else s
                   | none => email)
        r := some role }
    issued := now
    secret := secret }

/-- Embeds `app._get_bearer_token`: strips the `Authorization` header,
returns the stripped remainder after a case-insensitive `"Bearer "`,
and `""` otherwise. -/
def get_bearer_token (authorization : String) : String :=
  let auth := py_strip authorization
  if auth = "" then ""
  else if "bearer ".data.isPrefixOf (py_lower auth).data then py_strip ⟨auth.data.drop 7⟩
  else ""

/-- Outcome of `app._require_auth`: an identity context or an abort status. -/
inductive AuthOutcome where
  | ok (user_id : Int) (email : String) (username : String) (role : String) : AuthOutcome
  | err (status : Nat) : AuthOutcome
  deriving DecidableEq, Repr

/-- Embeds `app._require_auth`.  `decode` models deserialization of the
bearer string back into a signed token (`none` for a string that is not a
token at all, which the library rejects as `BadSignature`).  The source:
missing token aborts 401; `SignatureExpired` and `BadSignature` abort 401;
a missing `uid` claim or a role outside `{admin, user}` aborts 401; a
non-empty `required_role` not equal to the role aborts 403; otherwise the
context is returned. -/
def require_auth (secret : String) (ttl : Int) (now : Int)
    (decode : String → Option SignedToken) (authorization : String)
    (requiredRole : Option String) : AuthOutcome :=
  let token := get_bearer_token authorization
  if token = "" then .err 401
  else
    match decode token with
    | none => .err 401
    | some tok =>
      match serializer_loads secret ttl now tok with
      | .badsig => .err 401
      | .expired => .err 401
      | .ok payload =>
        let email := payload.e.getD ""
        let username :=
          match payload.u with
          | none => email
          | some s => if s = "" then email else s
        let role := payload.r.getD ""
        match payload.uid with
        | none => .err 401
        | some uid =>
          if role = "admin" ∨ role = "user" then
            match requiredRole with
            | some rr => if rr ≠ "" ∧ role ≠ rr then .err 403
                         else .ok uid email username role
            | none => .ok uid email username role
          else .err 401

/-- Embeds the legacy-secret check of `app._is_admin_request` (lines
141-143): the configured `ADMIN_TOKEN` is non-empty, the `X-ADMIN-TOKEN`
header is non-empty, and `hmac.compare_digest` finds them equal. -/
def admin_header_ok (adminToken headerToken : String) : Bool :=
  adminToken != "" && headerToken != "" && headerToken == adminToken

/-- Truthiness of an `_require_auth` outcome inside `_is_admin_request`:
a context dict is truthy, an abort raises and is caught as `False`. -/
def auth_ok (o : AuthOutcome) : Bool :=
  match o with
  | .ok _ _ _ _ => true
  | .err _ => false

/-- Embeds `app._is_admin_request`: the legacy header path, else the
bearer-token path `_require_auth(required_role="admin")`. -/
def is_admin_request (adminToken headerToken secret : String) (ttl now : Int)
    (decode : String → Option SignedToken) (authorization : String) : Bool :=
  if admin_header_ok adminToken headerToken then true
  else auth_ok (require_auth secret ttl now decode authorization (some "admin"))

/-! ## Ownership-aware log store (`db.py`) -/

/-- Embeds the `legacy_usernames` list built in `db.get_recent_for_user_id`
(and `delete_logs_for_user_id`): append the email when truthy, then the
username when truthy and not already present. -/
def legacy_usernames (user : UserRec) : List String :=
  let l1 := if user.email != "" then [user.email] else []
  if user.username != "" && !(l1.contains user.username) then l1 ++ [user.username]
  else l1

/-- Embeds the SQL row filter of `db.get_recent_for_user_id`: with
aliases present, `WHERE owner_user_id=%s OR owner_username IN (%s, %s)`
bound to `(user_id, legacy_usernames[0], legacy_usernames[-1])`; without,
`WHERE owner_user_id=%s`.  A NULL `owner_user_id` matches nothing. -/
def owner_row_matches (user_id : Int) (legacy : List String) (r : LogRow) : Bool :=
  if legacy.isEmpty then r.owner_user_id == some user_id
  else r.owner_user_id == some user_id
    || r.owner_username == legacy.headD ""
    || r.owner_username == legacy.getLastD ""

/-- Embeds `db.get_recent_for_user_id`: look the user up by id, build the
legacy alias list, then `SELECT ... WHERE <owner filter> ORDER BY id DESC
LIMIT %s` over the predictions table. -/
def get_recent_for_user_id (users : List UserRec) (preds : List LogRow)
    (user_id : Int) (limit : Nat) : List LogRow :=
  let legacy :=
    match get_user_by_id users user_id with
    | none => []
    | some u => legacy_usernames u
  ((preds.filter (owner_row_matches user_id legacy)).mergeSort
    (fun a b => decide (b.id ≤ a.id))).take limit

/-! ## Permission delegation (`db.py`) -/

/-- Embeds the `ON DUPLICATE KEY UPDATE` upsert into `user_permissions`
(primary key `username`). -/
def upsert_permission (rows : List PermRow) (username : String)
    (can : Bool) (now : Int) : List PermRow :=
  if rows.any (fun r => r.username == username) then
    rows.map (fun r =>
      if r.username == username then
        { r with can_delete_own_logs := can, updated_at := now }
      else r)
  else rows ++ [{ username := username, can_delete_own_logs := can, updated_at := now }]

/-- Embeds `db.set_user_can_delete_own`: resolve the reference (raising
`ValueError("user not found")` when it resolves to nothing), compute the
mirror key `user.get("username") or user.get("email")`, update the users
row by id, upsert the mirror row, and commit both in one transaction
(modelled by returning both new tables in a single `Except.ok` state). -/
def set_user_can_delete_own (st : DbState) (user_id_or_login : RefId)
    (can_delete : Bool) (now : Int) : Except String DbState :=
  match resolve_user st.users user_id_or_login with
  | none => .error "user not found"
  | some user =>
    let username := if user.username != "" then user.username else user.email
    .ok { users := st.users.map (fun u =>
            if u.id == user.id then { u with can_delete_own_logs := can_delete } else u)
          permissions := upsert_permission st.permissions username can_delete now }

/-! ## Login (`db.py` and `app.py`) -/

/-- Embeds `db._is_bcrypt_hash` on the symbolic hash. -/
def is_bcrypt_hash (h : StoredHash) : Bool :=
  match h with
  | .bcrypt _ => true
  | _ => false

/-- Embeds `db._verify_password` on the symbolic hash: an empty hash never
verifies; a bcrypt or legacy hash verifies exactly against the password it
was derived from. -/
def verify_password (h : StoredHash) (password : String) : Bool :=
  match h with
  | .empty => false
  | .bcrypt pw => password == pw
  | .legacy pw => password == pw

/-- Reachability of the credential store: `down` models
`get_connection()` (or any cursor operation) raising, `up` a reachable
store with the given `users` table. -/
inductive Store where
  | down : Store
  | up (users : List UserRec) : Store
  deriving Repr

/-- Embeds `db.verify_user_password`: strip the login, look it up by email
when it contains `@` and by username otherwise; reject a missing user or
an empty stored hash; on a successful verify of a legacy hash, upgrade the
stored hash to bcrypt in place (errors swallowed) and return the
re-fetched record.  `Except.error` models a raised store exception. -/
def verify_user_password (store : Store) (login password : String) :
    Except Unit (Option UserRec) :=
  match store with
  | .down => .error ()
  | .up users =>
    let l := py_strip login
    let user? := if l.data.contains '@' then get_user_by_email users (py_lower l)
                 else get_user users l
    match user? with
    | none => .ok none
    | some user =>
      if user.password_hash = .empty then .ok none
      else if verify_password user.password_hash password then
        if is_bcrypt_hash user.password_hash then .ok (some user)
        else .ok (some { user with password_hash := .bcrypt password })
      else .ok none

/-- Outcome of the `/auth/login` handler, restricted to what it returns:
`badRequest` is the 400 missing-fields response, `invalid` the 401
invalid-credentials response, `success` the 200 response fields. -/
inductive LoginResult where
  | badRequest : LoginResult
  | invalid : LoginResult
  | success (user_id : Int) (email : String) (username : String)
      (role : String) (can_delete_own_logs : Bool) : LoginResult
  deriving DecidableEq, Repr

/-- Embeds `app.auth_login`: missing login or password is a 400; then the
store-backed path — `verify_user_password` returning no user is a 401,
a verified user yields the 200 fields (`role or "user"`, `email or login`,
`username or login`, delete permission forced true for admins); only when
the store path raises does the env-credential fallback run, comparing the
submitted pair against `ADMIN_USERNAME`/`ADMIN_PASSWORD` and issuing the
synthetic admin identity `user_id = -1`, else a 401.  The best-effort
`record_user_login` call is swallowed and does not affect the response. -/
def auth_login (adminUsername adminPassword : String) (store : Store)
    (login password : String) : LoginResult :=
  if login = "" ∨ password = "" then .badRequest
  else
    match verify_user_password store login password with
    | .ok none => .invalid
    | .ok (some user) =>
      let role := if user.role = "" then "user" else user.role
      .success user.id
        (if user.email = "" then login else user.email)
        (if user.username = "" then login else user.username)
        role
        (if role = "admin" then true else user.can_delete_own_logs)
    | .error _ =>
      if login = adminUsername ∧ password = adminPassword then
        .success (-1) (adminUsername ++ "@local") adminUsername "admin" true
      else .invalid

/-! ## /predict URL length gate (`app.py`) -/

/-- Outcome of the length check at the top of the `/predict` handler. -/
inductive PredictCheck where
  | urlTooLong : PredictCheck
  | proceed (url : String) : PredictCheck
  deriving DecidableEq, Repr

/-- Embeds the `/predict` handler's URL handling: the submitted URL is
truncated by `str(data.get("url"))[:MAX_URL_LENGTH]`, and afterwards the
handler returns the 400 "url too long" response when the (truncated)
URL's length exceeds `MAX_URL_LENGTH`. -/
def predict_length_gate (raw : String) (maxLen : Nat) : PredictCheck :=
  let url : String := ⟨raw.data.take maxLen⟩
  if url.length > maxLen then .urlTooLong else .proceed url

/-! ## Theorems -/

/-- C9: in the `/predict` handler the "url too long" 400 branch is
unreachable: the URL is truncated to `MAX_URL_LENGTH` characters before the
length check, so the truncated URL never exceeds `MAX_URL_LENGTH` and the
handler always proceeds past the check. -/
theorem url_length_gate_unreachable (raw : String) (maxLen : Nat) :
    predict_length_gate raw maxLen = .proceed ⟨raw.data.take maxLen⟩ := by
  have h : (String.mk (raw.data.take maxLen)).length ≤ maxLen := by
    show (raw.data.take maxLen).length ≤ maxLen
    rw [List.length_take]
    exact min_le_left _ _
  unfold predict_length_gate
  rw [if_neg (by omega)]

/-- C7: a correctly signed token issued at `issued`, validated at
`issued + ttl + 1`, is rejected by the serializer's expiry branch
(`SignatureExpired`), never the bad-signature branch (`BadSignature`). -/
theorem expiry_beats_bad_signature (secret : String) (ttl issued : Int) (p : Payload) :
    serializer_loads secret ttl (issued + ttl + 1) ⟨p, issued, secret⟩ = .expired ∧
    serializer_loads secret ttl (issued + ttl + 1) ⟨p, issued, secret⟩ ≠ .badsig := by
  have h : serializer_loads secret ttl (issued + ttl + 1) ⟨p, issued, secret⟩ = .expired := by
    unfold serializer_loads
    rw [if_neg (by simp), if_pos (by show issued + ttl + 1 - issued > ttl; omega)]
  exact ⟨h, by rw [h]; intro hc; exact LoadResult.noConfusion hc⟩

/-- C4: validating a token produced by `_make_token` on a valid tuple
(role in the closed set, non-empty email and username), before the TTL has
elapsed, succeeds and returns exactly the same user id, email, username
and role. -/
theorem token_roundtrip (secret : String) (ttl issued now : Int) (uid : Int)
    (email username role : String) (decode : String → Option SignedToken)
    (header : String)
    (hrole : role = "user" ∨ role = "admin")
    (hemail : email ≠ "") (husername : username ≠ "")
    (hfresh : now - issued ≤ ttl)
    (htok : get_bearer_token header ≠ "")
    (hdec : decode (get_bearer_token header) =
      some (make_token secret issued uid email role (some username))) :
    require_auth secret ttl now decode header none = .ok uid email username role := by
  have hsec : (make_token secret issued uid email role (some username)).secret = secret := rfl
  have hiss : (make_token secret issued uid email role (some username)).issued = issued := rfl
  have hload : serializer_loads secret ttl now
      (make_token secret issued uid email role (some username)) =
      .ok ⟨some uid, some email, some (if username = "" then email else username), some role⟩ := by
    unfold serializer_loads
    rw [hsec, hiss, if_neg (by simp), if_neg (by omega)]
    rfl
  simp only [require_auth]
  rw [if_neg htok, hdec]
  dsimp only
  rw [hload]
  rcases hrole with hr | hr <;> subst hr <;> simp [husername]

/-- Helper: a token signed with the server's secret and not older than the
TTL deserializes to its claims. -/
theorem serializer_loads_fresh (secret : String) (ttl now : Int) (tok : SignedToken)
    (hsec : tok.secret = secret) (hfresh : now - tok.issued ≤ ttl) :
    serializer_loads secret ttl now tok = .ok tok.payload := by
  unfold serializer_loads
  rw [if_neg (by simp [hsec]), if_neg (by omega)]

/-- Witness for C4 at a concrete token. -/
theorem token_roundtrip_witness :
    ((("user" : String) = "user" ∨ ("user" : String) = "admin") ∧
     ("a@x.com" : String) ≠ "" ∧ ("a" : String) ≠ "" ∧ (5 : Int) - 0 ≤ 10 ∧
     get_bearer_token "Bearer t" ≠ "" ∧
     (fun _ : String => some (make_token "s" 0 7 "a@x.com" "user" (some "a")))
       (get_bearer_token "Bearer t") = some (make_token "s" 0 7 "a@x.com" "user" (some "a"))) ∧
    require_auth "s" 10 5 (fun _ => some (make_token "s" 0 7 "a@x.com" "user" (some "a")))
      "Bearer t" none = .ok 7 "a@x.com" "a" "user" :=
  ⟨⟨Or.inl rfl, by decide, by decide, by decide, by decide, rfl⟩,
   token_roundtrip "s" 10 0 5 7 "a@x.com" "a" "user"
     (fun _ => some (make_token "s" 0 7 "a@x.com" "user" (some "a"))) "Bearer t"
     (Or.inl rfl) (by decide) (by decide) (by decide) (by decide) rfl⟩

/-- C5: a correctly signed, unexpired token whose role claim lies outside
the closed set {user, admin}, or whose uid claim is missing, is rejected
with 401, whatever role the caller requires. -/
theorem malformed_claims_rejected (secret : String) (ttl issued now : Int)
    (p : Payload) (decode : String → Option SignedToken) (header : String)
    (requiredRole : Option String)
    (htok : get_bearer_token header ≠ "")
    (hdec : decode (get_bearer_token header) = some ⟨p, issued, secret⟩)
    (hfresh : now - issued ≤ ttl)
    (hbad : (∀ s, p.r = some s → s ≠ "user" ∧ s ≠ "admin") ∨ p.uid = none) :
    require_auth secret ttl now decode header requiredRole = .err 401 := by
  have hload : serializer_loads secret ttl now ⟨p, issued, secret⟩ = .ok p :=
    serializer_loads_fresh secret ttl now ⟨p, issued, secret⟩ rfl hfresh
  simp only [require_auth]
  rw [if_neg htok, hdec]
  dsimp only
  rw [hload]
  rcases hbad with hb | hb
  · cases huid : p.uid with
    | none => simp [huid]
    | some uid =>
      have hrole : ¬ (p.r.getD "" = "admin" ∨ p.r.getD "" = "user") := by
        cases hr : p.r with
        | none => simp
        | some s =>
          have hs := hb s hr
          simp [hs.1, hs.2]
      simp [huid, hrole]
  · simp [hb]

/-- Witness for C5 at a concrete token carrying role `"root"`. -/
theorem malformed_claims_rejected_witness :
    (get_bearer_token "Bearer t" ≠ "" ∧
     (fun _ : String => some (⟨⟨some 7, some "e", some "u", some "root"⟩, 0, "s"⟩ : SignedToken))
       (get_bearer_token "Bearer t") =
       some (⟨⟨some 7, some "e", some "u", some "root"⟩, 0, "s"⟩ : SignedToken) ∧
     (5 : Int) - 0 ≤ 10) ∧
    require_auth "s" 10 5 (fun _ => some (⟨⟨some 7, some "e", some "u", some "root"⟩, 0, "s"⟩ : SignedToken))
      "Bearer t" (some "admin") = .err 401 :=
  ⟨⟨by decide, rfl, by decide⟩,
   malformed_claims_rejected "s" 10 0 5 ⟨some 7, some "e", some "u", some "root"⟩
     (fun _ => some (⟨⟨some 7, some "e", some "u", some "root"⟩, 0, "s"⟩ : SignedToken))
     "Bearer t" (some "admin") (by decide) rfl (by decide)
     (Or.inl (fun s hs => by
        simp only [Option.some.injEq] at hs
        subst hs
        exact ⟨by decide, by decide⟩))⟩

/-- C3: `_require_auth("admin")` rejects a validly signed, unexpired token
whose role claim is `"user"` with 403 and never 401, and rejects a request
carrying no bearer token with 401 and never 403. -/
theorem role_gate_status_codes (secret : String) (ttl issued now : Int) (uid : Int)
    (email username : String) (decode : String → Option SignedToken)
    (headerUser headerNone : String)
    (htok : get_bearer_token headerUser ≠ "")
    (hdec : decode (get_bearer_token headerUser) =
      some (make_token secret issued uid email "user" (some username)))
    (hfresh : now - issued ≤ ttl)
    (hmiss : get_bearer_token headerNone = "") :
    (require_auth secret ttl now decode headerUser (some "admin") = .err 403 ∧
     require_auth secret ttl now decode headerUser (some "admin") ≠ .err 401) ∧
    (require_auth secret ttl now decode headerNone (some "admin") = .err 401 ∧
     require_auth secret ttl now decode headerNone (some "admin") ≠ .err 403) := by
  have hload := serializer_loads_fresh secret ttl now
    (make_token secret issued uid email "user" (some username)) rfl hfresh
  have h1 : require_auth secret ttl now decode headerUser (some "admin") = .err 403 := by
    simp only [require_auth]
    rw [if_neg htok, hdec]
    dsimp only
    rw [hload]
    simp [make_token]
  have h2 : require_auth secret ttl now decode headerNone (some "admin") = .err 401 := by
    simp only [require_auth]
    rw [if_pos hmiss]
  exact ⟨⟨h1, by rw [h1]; simp⟩, ⟨h2, by rw [h2]; simp⟩⟩

/-- Witness for C3 at a concrete token and a token-free request. -/
theorem role_gate_status_codes_witness :
    (get_bearer_token "Bearer t" ≠ "" ∧
     (fun _ : String => some (make_token "s" 0 7 "a@x.com" "user" (some "a")))
       (get_bearer_token "Bearer t") = some (make_token "s" 0 7 "a@x.com" "user" (some "a")) ∧
     (5 : Int) - 0 ≤ 10 ∧ get_bearer_token "" = "") ∧
    ((require_auth "s" 10 5 (fun _ => some (make_token "s" 0 7 "a@x.com" "user" (some "a")))
        "Bearer t" (some "admin") = .err 403 ∧
      require_auth "s" 10 5 (fun _ => some (make_token "s" 0 7 "a@x.com" "user" (some "a")))
        "Bearer t" (some "admin") ≠ .err 401) ∧
     (require_auth "s" 10 5 (fun _ => some (make_token "s" 0 7 "a@x.com" "user" (some "a")))
        "" (some "admin") = .err 401 ∧
      require_auth "s" 10 5 (fun _ => some (make_token "s" 0 7 "a@x.com" "user" (some "a")))
        "" (some "admin") ≠ .err 403)) :=
  ⟨⟨by decide, rfl, by decide, by decide⟩,
   role_gate_status_codes "s" 10 0 5 7 "a@x.com" "a"
     (fun _ => some (make_token "s" 0 7 "a@x.com" "user" (some "a"))) "Bearer t" ""
     (by decide) rfl (by decide) (by decide)⟩

/-- C6: a request whose `X-ADMIN-TOKEN` header exactly equals the non-empty
configured admin secret passes `_is_admin_request` whatever the bearer
header holds; any differing header value (in particular every strict
prefix or suffix of the secret, which is a differing value) fails the
legacy-secret check, leaving only the bearer-token path. -/
theorem legacy_admin_header_gate (adminToken headerToken secret : String)
    (ttl now : Int) (decode : String → Option SignedToken) (authorization : String)
    (hconf : adminToken ≠ "") (hdiff : headerToken ≠ adminToken) :
    is_admin_request adminToken adminToken secret ttl now decode authorization = true ∧
    admin_header_ok adminToken headerToken = false ∧
    is_admin_request adminToken headerToken secret ttl now decode authorization =
      auth_ok (require_auth secret ttl now decode authorization (some "admin")) := by
  have h1 : admin_header_ok adminToken adminToken = true := by
    simp [admin_header_ok, hconf]
  have h2 : admin_header_ok adminToken headerToken = false := by
    simp [admin_header_ok, hdiff]
  refine ⟨?_, h2, ?_⟩
  · simp [is_admin_request, h1]
  · simp [is_admin_request, h2]

/-- Witness for C6 at a concrete secret and a strict prefix of it. -/
theorem legacy_admin_header_gate_witness :
    (("secret123" : String) ≠ "" ∧ ("secret12" : String) ≠ "secret123") ∧
    (is_admin_request "secret123" "secret123" "s" 10 5 (fun _ => none) "" = true ∧
     admin_header_ok "secret123" "secret12" = false ∧
     is_admin_request "secret123" "secret12" "s" 10 5 (fun _ => none) "" =
       auth_ok (require_auth "s" 10 5 (fun _ => none) "" (some "admin"))) :=
  ⟨⟨by decide, by decide⟩,
   legacy_admin_header_gate "secret123" "secret12" "s" 10 5 (fun _ => none) ""
     (by decide) (by decide)⟩

/-- C8: `_resolve_user` dispatches by shape, not by trial and error: an
integer or all-digit reference is looked up only as a numeric id (so an
all-digit username is resolved as an id lookup), a reference containing
`@` only as a lowercased email, and any other non-empty reference only as
a username.  Ids are positive (AUTO_INCREMENT), which makes the Python
falsiness of the integer `0` unobservable. -/
theorem resolver_shape_dispatch (users : List UserRec)
    (hpos : ∀ v ∈ users, 1 ≤ v.id) :
    (∀ i : Int, resolve_user users (.int i) = get_user_by_id users i) ∧
    (∀ s : String, py_isdigit (py_strip s) = true →
       resolve_user users (.str s) = get_user_by_id users (py_digits_to_int (py_strip s))) ∧
    (∀ s : String, py_isdigit (py_strip s) = false →
       (py_strip s).data.contains '@' = true → py_strip s ≠ "" →
       resolve_user users (.str s) = get_user_by_email users (py_lower (py_strip s))) ∧
    (∀ s : String, py_isdigit (py_strip s) = false →
       (py_strip s).data.contains '@' = false → py_strip s ≠ "" →
       resolve_user users (.str s) = get_user users (py_strip s)) := by
  refine ⟨?_, ?_, ?_, ?_⟩
  · intro i
    by_cases hi : i = 0
    · subst hi
      simp only [resolve_user, if_pos rfl]
      symm
      unfold get_user_by_id
      apply List.find?_eq_none.mpr
      intro v hv
      have h1 := hpos v hv
      simp only [beq_iff_eq]
      omega
    · simp [resolve_user, hi]
  · intro s hs
    have hne : py_strip s ≠ "" := by
      intro h
      rw [h] at hs
      simp [py_isdigit] at hs
    simp only [resolve_user]
    rw [if_neg hne, if_pos hs]
  · intro s hdig hat hne
    simp only [resolve_user]
    rw [if_neg hne, if_neg (by simp [hdig]), if_pos hat]
  · intro s hdig hat hne
    simp only [resolve_user]
    rw [if_neg hne, if_neg (by simp [hdig]), if_neg (by rw [hat]; simp)]

/-- Store used by the C8 witness: one user whose username is all digits. -/
def c8_users : List UserRec :=
  [{ id := 5, email := "c@x.com", username := "77", password_hash := .bcrypt "pw",
     role := "user", can_delete_own_logs := false }]

/-- Witness for C8 at a concrete store. -/
theorem resolver_shape_dispatch_witness :
    (∀ v ∈ c8_users, 1 ≤ v.id) ∧
    ((∀ i : Int, resolve_user c8_users (.int i) = get_user_by_id c8_users i) ∧
     (∀ s : String, py_isdigit (py_strip s) = true →
        resolve_user c8_users (.str s) = get_user_by_id c8_users (py_digits_to_int (py_strip s))) ∧
     (∀ s : String, py_isdigit (py_strip s) = false →
        (py_strip s).data.contains '@' = true → py_strip s ≠ "" →
        resolve_user c8_users (.str s) = get_user_by_email c8_users (py_lower (py_strip s))) ∧
     (∀ s : String, py_isdigit (py_strip s) = false →
        (py_strip s).data.contains '@' = false → py_strip s ≠ "" →
        resolve_user c8_users (.str s) = get_user c8_users (py_strip s))) :=
  ⟨by decide, resolver_shape_dispatch c8_users (by decide)⟩

/-- Helper: with a reachable store, `verify_user_password` never raises. -/
theorem verify_up_not_error (users : List UserRec) (login password : String)
    (e : Unit) : verify_user_password (.up users) login password ≠ .error e := by
  simp only [verify_user_password]
  split
  · simp
  · split
    · simp
    · split
      · split <;> simp
      · simp

/-- Helper: a user returned by `verify_user_password` over a reachable
store carries the id of a stored user (the hash-upgrade path preserves the
record's id). -/
theorem verify_up_some_id (users : List UserRec) (login password : String)
    (u : UserRec) (h : verify_user_password (.up users) login password = .ok (some u)) :
    ∃ v ∈ users, v.id = u.id := by
  simp only [verify_user_password] at h
  split at h
  · simp at h
  · rename_i user huser
    have hmem : user ∈ users := by
      split at huser
      · exact List.mem_of_find?_eq_some huser
      · exact List.mem_of_find?_eq_some huser
    split at h
    · simp at h
    · split at h
      · split at h
        · simp only [Except.ok.injEq, Option.some.injEq] at h
          subst h
          exact ⟨user, hmem, rfl⟩
        · simp only [Except.ok.injEq, Option.some.injEq] at h
          exact ⟨user, hmem, by rw [← h]⟩
      · simp at h

/-- C10: the env-credential admin fallback in `/auth/login` runs only when
the credential store raises.  With a reachable store, a login matching no
stored user (or failing password verification) returns the 401
invalid-credentials response — even when the submitted pair equals the
configured fallback credentials — and a reachable store can never yield
the fallback's synthetic `user_id = -1` admin identity. -/
theorem login_fallback_only_on_store_error (adminUsername adminPassword : String)
    (users : List UserRec) (login password : String)
    (hl : login ≠ "") (hp : password ≠ "")
    (hids : ∀ v ∈ users, 1 ≤ v.id) :
    (verify_user_password (.up users) login password = .ok none →
      auth_login adminUsername adminPassword (.up users) login password = .invalid) ∧
    (∀ e un r c, auth_login adminUsername adminPassword (.up users) login password ≠
      .success (-1) e un r c) := by
  constructor
  · intro hv
    simp only [auth_login]
    rw [if_neg (not_or.mpr ⟨hl, hp⟩), hv]
  · intro e un r c hcontra
    simp only [auth_login] at hcontra
    rw [if_neg (not_or.mpr ⟨hl, hp⟩)] at hcontra
    cases hv : verify_user_password (.up users) login password with
    | error err => exact verify_up_not_error users login password err hv
    | ok o =>
      rw [hv] at hcontra
      cases o with
      | none => simp at hcontra
      | some u =>
        dsimp only at hcontra
        injection hcontra with h1 h2 h3 h4 h5
        obtain ⟨v, hvmem, hvid⟩ := verify_up_some_id users login password u hv
        have h6 := hids v hvmem
        omega

/-- Witness for C10: the fallback pair submitted against a reachable but
empty store is still a 401. -/
theorem login_fallback_only_on_store_error_witness :
    (("admin" : String) ≠ "" ∧ ("admin123" : String) ≠ "" ∧
     (∀ v ∈ ([] : List UserRec), 1 ≤ v.id)) ∧
    ((verify_user_password (.up []) "admin" "admin123" = .ok none →
       auth_login "admin" "admin123" (.up []) "admin" "admin123" = .invalid) ∧
     (∀ e un r c, auth_login "admin" "admin123" (.up []) "admin" "admin123" ≠
       .success (-1) e un r c)) :=
  ⟨⟨by decide, by decide, by decide⟩,
   login_fallback_only_on_store_error "admin" "admin123" [] "admin" "admin123"
     (by decide) (by decide) (by decide)⟩

/-- Helper: the upsert always leaves a row under the given key carrying the
written value. -/
theorem upsert_permission_mem_key (rows : List PermRow) (key : String)
    (can : Bool) (now : Int) :
    ∃ r ∈ upsert_permission rows key can now,
      r.username = key ∧ r.can_delete_own_logs = can ∧ r.updated_at = now := by
  unfold upsert_permission
  split
  · rename_i hany
    rw [List.any_eq_true] at hany
    obtain ⟨r0, hr0, hkey⟩ := hany
    refine ⟨{ r0 with can_delete_own_logs := can, updated_at := now }, ?_, ?_, rfl, rfl⟩
    · have hmap := List.mem_map_of_mem (fun r =>
        if r.username == key then { r with can_delete_own_logs := can, updated_at := now } else r) hr0
      dsimp only at hmap
      rwa [if_pos hkey] at hmap
    · exact (beq_iff_eq.mp hkey)
  · exact ⟨{ username := key, can_delete_own_logs := can, updated_at := now },
      List.mem_append_right _ (List.mem_singleton.mpr rfl), rfl, rfl, rfl⟩

/-- Helper: the upsert touches no row under a different key. -/
theorem upsert_permission_mem_other (rows : List PermRow) (key : String)
    (can : Bool) (now : Int) (r : PermRow)
    (hr : r ∈ upsert_permission rows key can now) (hne : r.username ≠ key) :
    r ∈ rows := by
  unfold upsert_permission at hr
  split at hr
  · obtain ⟨r0, hr0, heq⟩ := List.mem_map.mp hr
    by_cases hk : r0.username == key
    · rw [if_pos hk] at heq
      exact absurd (heq ▸ (beq_iff_eq.mp hk) : r.username = key) hne
    · rw [if_neg hk] at heq
      exact heq ▸ hr0
  · rcases List.mem_append.mp hr with hmem | hmem
    · exact hmem
    · exact absurd (List.mem_singleton.mp hmem ▸ rfl : r.username = key) hne

/-- State used by the C2 counterexample: one user whose email and username
differ, and an empty mirror table. -/
def c2_state : DbState :=
  { users := [{ id := 1, email := "a@x.com", username := "a",
                password_hash := .bcrypt "pw", role := "user",
                can_delete_own_logs := false }]
    permissions := [] }

/-- Counterexample to C2 as stated: resolving `"a"` yields a user whose
canonical alias under the claim's email-preferring rule is `"a@x.com"`,
yet the committed mirror row is keyed by the username `"a"`, and no row
keyed by the email exists after the write. -/
theorem set_delegation_email_key_refuted :
    set_user_can_delete_own c2_state (.str "a") true 100 =
      Except.ok
        { users := [{ id := 1, email := "a@x.com", username := "a",
                      password_hash := .bcrypt "pw", role := "user",
                      can_delete_own_logs := true }]
          permissions := [{ username := "a", can_delete_own_logs := true,
                            updated_at := 100 }] } ∧
    ("a" : String) ≠ "a@x.com" := ⟨rfl, by decide⟩

/-- C2 (amended): `set_user_can_delete_own` fails with the not-found error
when the reference resolves to no user; on success it commits, as a single
transaction, the flag onto the resolved user's row together with an upsert
of the same value into the alias-keyed mirror — keyed by the resolved
user's username, falling back to the email only when the username is
empty (the code prefers username over email). -/
theorem set_delegation_dual_write (st : DbState) (ref : RefId)
    (can : Bool) (now : Int) :
    (resolve_user st.users ref = none →
      set_user_can_delete_own st ref can now = .error "user not found") ∧
    (∀ u, resolve_user st.users ref = some u →
      ∃ st2, set_user_can_delete_own st ref can now = .ok st2 ∧
        (∀ v ∈ st2.users, v.id = u.id → v.can_delete_own_logs = can) ∧
        (∀ v ∈ st2.users, v.id ≠ u.id → v ∈ st.users) ∧
        (∃ r ∈ st2.permissions,
          r.username = (if u.username = "" then u.email else u.username) ∧
          r.can_delete_own_logs = can ∧ r.updated_at = now) ∧
        (∀ r ∈ st2.permissions,
          r.username ≠ (if u.username = "" then u.email else u.username) →
          r ∈ st.permissions)) := by
  constructor
  · intro hn
    simp only [set_user_can_delete_own, hn]
  · intro u hu
    have hkey : (if u.username != "" then u.username else u.email) =
        (if u.username = "" then u.email else u.username) := by
      by_cases h : u.username = "" <;> simp [h]
    simp only [set_user_can_delete_own, hu]
    refine ⟨_, rfl, ?_, ?_, ?_, ?_⟩
    · intro v hv hid
      obtain ⟨w, hw, hweq⟩ := List.mem_map.mp hv
      by_cases hwid : (w.id == u.id) = true
      · rw [if_pos hwid] at hweq
        rw [← hweq]
      · rw [if_neg hwid] at hweq
        subst hweq
        exact absurd hid (by simpa using hwid)
    · intro v hv hid
      obtain ⟨w, hw, hweq⟩ := List.mem_map.mp hv
      by_cases hwid : (w.id == u.id) = true
      · rw [if_pos hwid] at hweq
        exact absurd (by rw [← hweq]; exact (beq_iff_eq.mp hwid)) hid
      · rw [if_neg hwid] at hweq
        exact hweq ▸ hw
    · obtain ⟨r, hr, hrkey, hrcan, hrnow⟩ :=
        upsert_permission_mem_key st.permissions
          (if u.username != "" then u.username else u.email) can now
      exact ⟨r, hr, by rw [hrkey, hkey], hrcan, hrnow⟩
    · intro r hr hrne
      apply upsert_permission_mem_other st.permissions
        (if u.username != "" then u.username else u.email) can now r hr
      rw [hkey]
      exact hrne

/-- State used by the C2 witness. -/
def c2_wit_state : DbState :=
  { users := [{ id := 2, email := "b@x.com", username := "b",
                password_hash := .bcrypt "pw", role := "user",
                can_delete_own_logs := false }]
    permissions := [{ username := "old", can_delete_own_logs := false, updated_at := 1 }] }

/-- User resolved by the C2 witness. -/
def c2_wit_user : UserRec :=
  { id := 2, email := "b@x.com", username := "b", password_hash := .bcrypt "pw",
    role := "user", can_delete_own_logs := false }

/-- Witness for C2 (amended) at a concrete state and reference. -/
theorem set_delegation_dual_write_witness :
    ∃ st2, set_user_can_delete_own c2_wit_state (.str "b") true 7 = .ok st2 ∧
      (∀ v ∈ st2.users, v.id = c2_wit_user.id → v.can_delete_own_logs = true) ∧
      (∀ v ∈ st2.users, v.id ≠ c2_wit_user.id → v ∈ c2_wit_state.users) ∧
      (∃ r ∈ st2.permissions,
        r.username = (if c2_wit_user.username = "" then c2_wit_user.email
                      else c2_wit_user.username) ∧
        r.can_delete_own_logs = true ∧ r.updated_at = 7) ∧
      (∀ r ∈ st2.permissions,
        r.username ≠ (if c2_wit_user.username = "" then c2_wit_user.email
                      else c2_wit_user.username) →
        r ∈ c2_wit_state.permissions) :=
  (set_delegation_dual_write c2_wit_state (.str "b") true 7).2 c2_wit_user (by decide)

/-- Restates the row-ownership condition of claim C1 in the spec's terms:
the row carries the user's numeric id, or its owner alias equals the
user's non-empty email or non-empty username. -/
def spec_row_matches (user_id : Int) (u : UserRec) (r : LogRow) : Bool :=
  r.owner_user_id == some user_id
  || (u.email != "" && r.owner_username == u.email)
  || (u.username != "" && r.owner_username == u.username)

/-- Helper: the SQL filter with its two bound alias parameters coincides
with the spec's alias condition in every alias configuration (no email,
no username, equal, distinct). -/
theorem owner_row_matches_eq_spec (user_id : Int) (u : UserRec) (r : LogRow) :
    owner_row_matches user_id (legacy_usernames u) r = spec_row_matches user_id u r := by
  unfold owner_row_matches legacy_usernames spec_row_matches
  by_cases he : u.email = ""
  · by_cases hn : u.username = ""
    · simp [he, hn]
    · have hn2 : (u.username != "") = true := by simp [hn]
      simp [he, hn, hn2, Bool.or_assoc]
  · have he2 : (u.email != "") = true := by simp [he]
    by_cases hn : u.username = ""
    · simp [he, hn, he2, Bool.or_assoc]
    · have hn2 : (u.username != "") = true := by simp [hn]
      by_cases hue : u.username = u.email
      · simp [he, hn, hn2, he2, hue, Bool.or_assoc]
      · simp [he, hn, hn2, he2, hue, Bool.or_assoc]

/-- C1: listing logs by numeric user id merges ownership.  With the user
present in the store, pairwise-distinct row ids, and a limit at least the
number of matching rows, the listing returns exactly the rows owned by the
numeric id or by one of the user's non-empty legacy aliases (email or
username) — each such row exactly once — ordered newest (largest id)
first. -/
theorem ownership_merge_by_user_id (users : List UserRec) (preds : List LogRow)
    (user_id : Int) (limit : Nat) (u : UserRec)
    (hu : get_user_by_id users user_id = some u)
    (hids : preds.Pairwise (fun a b => a.id ≠ b.id))
    (hlim : (preds.filter (spec_row_matches user_id u)).length ≤ limit) :
    (∀ r, r ∈ get_recent_for_user_id users preds user_id limit ↔
       r ∈ preds ∧ spec_row_matches user_id u r = true) ∧
    (∀ r ∈ preds, spec_row_matches user_id u r = true →
       (get_recent_for_user_id users preds user_id limit).count r = 1) ∧
    (get_recent_for_user_id users preds user_id limit).Pairwise
      (fun a b => b.id ≤ a.id) := by
  have hfe : preds.filter (owner_row_matches user_id (legacy_usernames u)) =
      preds.filter (spec_row_matches user_id u) :=
    List.filter_congr (fun r _ => owner_row_matches_eq_spec user_id u r)
  have hperm := List.mergeSort_perm (preds.filter (spec_row_matches user_id u))
    (fun a b => decide (b.id ≤ a.id))
  have hout : get_recent_for_user_id users preds user_id limit =
      (preds.filter (spec_row_matches user_id u)).mergeSort
        (fun a b => decide (b.id ≤ a.id)) := by
    unfold get_recent_for_user_id
    rw [hu]
    dsimp only
    rw [hfe]
    apply List.take_of_length_le
    rw [hperm.length_eq]
    exact hlim
  have hnodup : ((preds.filter (spec_row_matches user_id u)).mergeSort
      (fun a b => decide (b.id ≤ a.id))).Nodup := by
    apply hperm.symm.nodup
    apply List.Nodup.filter
    exact hids.imp (fun hne heq => hne (congrArg LogRow.id heq))
  refine ⟨?_, ?_, ?_⟩
  · intro r
    rw [hout, hperm.mem_iff, List.mem_filter]
  · intro r hr hmatch
    rw [hout]
    apply List.count_eq_one_of_mem hnodup
    rw [hperm.mem_iff, List.mem_filter]
    exact ⟨hr, hmatch⟩
  · rw [hout]
    have hsorted := @List.sorted_mergeSort LogRow
      (fun a b => decide (b.id ≤ a.id))
      (fun a b c hab hbc => by
        simp only [decide_eq_true_eq] at *
        omega)
      (fun a b => by
        simp only [Bool.or_eq_true, decide_eq_true_eq]
        omega)
      (preds.filter (spec_row_matches user_id u))
    exact hsorted.imp (fun h => of_decide_eq_true h)

/-- User record used by the C1 witness. -/
def c1_user : UserRec :=
  { id := 1, email := "a@x.com", username := "a", password_hash := .bcrypt "pw",
    role := "user", can_delete_own_logs := false }

/-- User store used by the C1 witness. -/
def c1_users : List UserRec := [c1_user]

/-- Prediction rows used by the C1 witness: a pre-migration row tagged only
by the alias, a post-migration row tagged by the numeric id, and an
unrelated row. -/
def c1_preds : List LogRow :=
  [{ id := 1, owner_user_id := none, owner_username := "a@x.com",
     url := "u1", timestamp := 10 },
   { id := 2, owner_user_id := some 1, owner_username := "a@x.com",
     url := "u2", timestamp := 20 },
   { id := 3, owner_user_id := none, owner_username := "bob",
     url := "u3", timestamp := 30 }]

/-- Witness for C1 at a concrete store and log table. -/
theorem ownership_merge_by_user_id_witness :
    (get_user_by_id c1_users 1 = some c1_user ∧
     c1_preds.Pairwise (fun a b => a.id ≠ b.id) ∧
     (c1_preds.filter (spec_row_matches 1 c1_user)).length ≤ 50) ∧
    ((∀ r, r ∈ get_recent_for_user_id c1_users c1_preds 1 50 ↔
        r ∈ c1_preds ∧ spec_row_matches 1 c1_user r = true) ∧
     (∀ r ∈ c1_preds, spec_row_matches 1 c1_user r = true →
        (get_recent_for_user_id c1_users c1_preds 1 50).count r = 1) ∧
     (get_recent_for_user_id c1_users c1_preds 1 50).Pairwise
       (fun a b => b.id ≤ a.id)) :=
  ⟨⟨by decide, by decide, by decide⟩,
   ownership_merge_by_user_id c1_users c1_preds 1 50 c1_user
     (by decide) (by decide) (by decide)⟩
